import Mathlib

/-!
Verification of the motion_studio RoboClaw driver and simulation engine.

This file is a shallow embedding, in Lean 4, of the protocol/device-driver
and simulation code in `src-tauri/src/device.rs` and `src-tauri/src/sim.rs`.
Bytes are modelled as `Nat` (a `u8` value is a `Nat < 256`), 16-bit CRC
state as `Nat` with explicit `% 65536` where the Rust `u16` arithmetic
wraps, 32-bit signed wire integers as `Int` in two's-complement byte form,
and the simulation's `f32` arithmetic as exact rational (`ℚ`) arithmetic
with the same formulas and control flow.  Fallible operations return
`Except String`, mirroring `Result<_, String>`; a Rust slice-indexing
panic is modelled as `Option.none` in the functions that can reach one.
-/

deriving instance DecidableEq for Except

namespace MotionStudio

/-! ## CRC16 codec (device.rs, `calc_crc`, lines 70-83) -/

/-- One inner-loop round of `calc_crc`: shift the 16-bit CRC register left
by one (wrapping) and XOR the polynomial `0x1021` if the top bit was set. -/
def crcRound (crc : Nat) : Nat :=
  if crc &&& 0x8000 ≠ 0 then ((crc <<< 1) % 65536) ^^^ 0x1021
  else (crc <<< 1) % 65536

/-- Iterate `crcRound` a given number of times (the Rust `for _ in 0..8`). -/
def crcRounds : Nat → Nat → Nat
  | 0, crc => crc
  | n + 1, crc => crcRounds n (crcRound crc)

/-- Process one message byte: XOR it into the top 8 bits of the register,
then run 8 rounds.  In the Rust source the byte has type `u8`, so it is
below 256 and `(byte as u16) << 8` never wraps. -/
def crcStep (crc b : Nat) : Nat :=
  crcRounds 8 (crc ^^^ (b <<< 8))

/-- CRC16 (CCITT/XMODEM) of a byte list, seed 0: the embedding of
`calc_crc` from device.rs lines 70-83. -/
def calc_crc (data : List Nat) : Nat :=
  data.foldl crcStep 0

/-- Big-endian byte pair of a 16-bit CRC, as pushed by every sender in
device.rs: `(crc >> 8) as u8` then `(crc & 0xFF) as u8`. -/
def crcBytes (crc : Nat) : List Nat :=
  [crc >>> 8, crc &&& 0xFF]

/-- Build a response frame carrying `payload` whose trailing CRC is
computed over `addr :: cmd :: payload` — the shape `parse_response`
accepts. -/
def mkFrame (addr cmd : Nat) (payload : List Nat) : List Nat :=
  payload ++ crcBytes (calc_crc (addr :: cmd :: payload))

/-! ## Response validator (device.rs, `parse_response`, lines 86-100) -/

/-- Embedding of `parse_response`: reject responses shorter than 3 bytes,
split the last two bytes off as the received big-endian CRC, recompute the
CRC over `[addr, cmd] ++ data`, and reject on mismatch. -/
def parse_response (resp : List Nat) (addr cmd : Nat) :
    Except String (List Nat) :=
  if resp.length < 3 then .error "Response too short"
  else
    let data_len := resp.length - 2
    let data := resp.take data_len
    let crc_received := ((resp.getD data_len 0) <<< 8) ||| resp.getD (data_len + 1) 0
    let crc_calc := calc_crc (addr :: cmd :: data)
    if crc_calc ≠ crc_received then .error "CRC mismatch"
    else .ok data

/-- The payload a well-formed response carries: everything but the last
two bytes. -/
def payloadOf (resp : List Nat) : List Nat :=
  resp.take (resp.length - 2)

/-- The trailing two response bytes read as a big-endian 16-bit value,
exactly as `parse_response` reads them. -/
def recvCrc (resp : List Nat) : Nat :=
  ((resp.getD (resp.length - 2) 0) <<< 8) ||| resp.getD (resp.length - 1) 0

theorem isOk_ok {ε α : Type} (a : α) : (Except.ok a : Except ε α).isOk = true := rfl

theorem isOk_error {ε α : Type} (e : ε) :
    (Except.error e : Except ε α).isOk = false := rfl

theorem parse_response_def_ok (resp : List Nat) (addr cmd : Nat)
    (h3 : ¬ resp.length < 3)
    (hcrc : calc_crc (addr :: cmd :: resp.take (resp.length - 2))
      = ((resp.getD (resp.length - 2) 0) <<< 8) ||| resp.getD (resp.length - 1) 0) :
    parse_response resp addr cmd = .ok (resp.take (resp.length - 2)) := by
  have harith : resp.length - 2 + 1 = resp.length - 1 := by omega
  simp only [parse_response, if_neg h3, harith]
  rw [if_neg (by simpa using hcrc)]

theorem parse_response_def_err (resp : List Nat) (addr cmd : Nat)
    (h3 : ¬ resp.length < 3)
    (hcrc : calc_crc (addr :: cmd :: resp.take (resp.length - 2))
      ≠ ((resp.getD (resp.length - 2) 0) <<< 8) ||| resp.getD (resp.length - 1) 0) :
    parse_response resp addr cmd = .error "CRC mismatch" := by
  have harith : resp.length - 2 + 1 = resp.length - 1 := by omega
  simp only [parse_response, if_neg h3, harith]
  rw [if_pos (by simpa using hcrc)]

/-- Claim C1.  `parse_response` fails on every response shorter than 3 bytes;
on a response of length at least 3 it succeeds — returning the response
without its last two bytes — exactly when the trailing two bytes, read as
a big-endian `u16`, equal `calc_crc ([addr, cmd] ++ payload)`, and a
mismatch is always an error. -/
theorem parse_response_ok_iff_crc (resp : List Nat) (addr cmd : Nat) :
    (parse_response resp addr cmd = .ok (payloadOf resp)
      ↔ 3 ≤ resp.length
          ∧ recvCrc resp = calc_crc (addr :: cmd :: payloadOf resp))
    ∧ ((parse_response resp addr cmd).isOk = false
      ↔ resp.length < 3
          ∨ recvCrc resp ≠ calc_crc (addr :: cmd :: payloadOf resp)) := by
  by_cases h3 : resp.length < 3
  · constructor
    · constructor
      · intro h
        unfold parse_response at h
        rw [if_pos h3] at h
        exact absurd h (by simp)
      · intro ⟨hle, _⟩; omega
    · constructor
      · intro _; exact Or.inl h3
      · intro _
        unfold parse_response
        rw [if_pos h3]
        rfl
  · by_cases hcrc : calc_crc (addr :: cmd :: payloadOf resp) = recvCrc resp
    · have hok := parse_response_def_ok resp addr cmd h3 hcrc
      constructor
      · rw [hok]
        simp only [Except.ok.injEq]
        constructor
        · intro _; exact ⟨by omega, hcrc.symm⟩
        · intro _; rfl
      · rw [hok, isOk_ok]
        constructor
        · intro h; exact absurd h (by simp)
        · intro h
          rcases h with h | h
          · omega
          · exact absurd hcrc.symm h
    · have herr := parse_response_def_err resp addr cmd h3 hcrc
      constructor
      · rw [herr]
        constructor
        · intro h; exact absurd h (by simp)
        · intro ⟨_, h⟩; exact absurd h.symm hcrc
      · rw [herr, isOk_error]
        constructor
        · intro _; exact Or.inr (fun h => hcrc h.symm)
        · intro _; rfl

/-- Witness: the concrete frame for address `0x80`, command 18, payload
`[0]` is accepted, with the CRC equality holding. -/
theorem parse_response_ok_iff_crc_witness :
    parse_response (mkFrame 128 18 [0]) 128 18
      = .ok (payloadOf (mkFrame 128 18 [0]))
    ∧ 3 ≤ (mkFrame 128 18 [0]).length :=
  ⟨(parse_response_ok_iff_crc (mkFrame 128 18 [0]) 128 18).1.mpr
    ⟨by decide, by decide⟩, by decide⟩

/-! ## Bit-level facts about the CRC register -/

theorem xor_left_comm (a b c : Nat) : a ^^^ (b ^^^ c) = b ^^^ (a ^^^ c) := by
  rw [← Nat.xor_assoc, Nat.xor_comm a b, Nat.xor_assoc]

theorem xor_eq_self_iff (a b : Nat) : a ^^^ b = a ↔ b = 0 := by
  constructor
  · intro h
    have h2 : a ^^^ (a ^^^ b) = a ^^^ a := congrArg (fun x => a ^^^ x) h
    simpa [Nat.xor_cancel_left, Nat.xor_self] using h2
  · intro h; simp [h]

theorem shiftLeft_xor_distrib (a b n : Nat) :
    (a ^^^ b) <<< n = (a <<< n) ^^^ (b <<< n) := by
  apply Nat.eq_of_testBit_eq
  intro i
  by_cases h : n ≤ i <;>
    simp [Nat.testBit_shiftLeft, Nat.testBit_xor, h]

theorem mod_two_pow_xor_distrib (a b n : Nat) :
    (a ^^^ b) % 2 ^ n = (a % 2 ^ n) ^^^ (b % 2 ^ n) := by
  apply Nat.eq_of_testBit_eq
  intro i
  by_cases h : i < n <;>
    simp [Nat.testBit_mod_two_pow, Nat.testBit_xor, h]

theorem and_top_bit_iff (c : Nat) : c &&& 0x8000 ≠ 0 ↔ c.testBit 15 = true := by
  have h : (0x8000 : Nat) = 2 ^ 15 := by norm_num
  rw [h, Nat.and_two_pow]
  cases hc : c.testBit 15 <;> simp [hc]

/-- Shape of one CRC round as an unconditional XOR. -/
theorem crcRound_eq (c : Nat) :
    crcRound c = ((c <<< 1) % 65536) ^^^ (if c.testBit 15 then 0x1021 else 0) := by
  unfold crcRound
  by_cases h : c &&& 0x8000 ≠ 0
  · rw [if_pos h, if_pos ((and_top_bit_iff c).mp h)]
  · rw [if_neg h]
    have : c.testBit 15 = false := by
      cases hb : c.testBit 15
      · rfl
      · exact absurd ((and_top_bit_iff c).mpr hb) h
    rw [this]
    simp

theorem crcRound_lt (c : Nat) : crcRound c < 65536 := by
  unfold crcRound
  split
  · have h1 : (c <<< 1) % 65536 < 65536 := Nat.mod_lt _ (by norm_num)
    have h2 : (0x1021 : Nat) < 65536 := by norm_num
    have h16 : (65536 : Nat) = 2 ^ 16 := by norm_num
    rw [h16] at h1 h2 ⊢
    exact Nat.xor_lt_two_pow h1 h2
  · exact Nat.mod_lt _ (by norm_num)

theorem crcRound_zero : crcRound 0 = 0 := by decide

/-- The round function is linear over XOR. -/
theorem crcRound_linear (a b : Nat) :
    crcRound (a ^^^ b) = crcRound a ^^^ crcRound b := by
  have h16 : (65536 : Nat) = 2 ^ 16 := by norm_num
  rw [crcRound_eq, crcRound_eq, crcRound_eq, Nat.testBit_xor,
    shiftLeft_xor_distrib, h16, mod_two_pow_xor_distrib]
  cases ha : a.testBit 15 <;> cases hb : b.testBit 15 <;>
    simp [Nat.xor_assoc, xor_left_comm, Nat.xor_comm, Nat.xor_self, Nat.xor_zero,
      Nat.xor_cancel_left]

/-- A nonzero 16-bit register never becomes zero in one round. -/
theorem crcRound_eq_zero (c : Nat) (hc : c < 65536) (h : crcRound c = 0) :
    c = 0 := by
  have h16 : (65536 : Nat) = 2 ^ 16 := by norm_num
  rw [crcRound_eq] at h
  by_cases hb : c.testBit 15
  · exfalso
    rw [if_pos hb] at h
    have heq : (c <<< 1) % 65536 = 0x1021 := by
      have := congrArg (fun x => x ^^^ 0x1021) h
      simpa [Nat.xor_assoc, Nat.xor_self, Nat.xor_zero] using this
    have hpar := congrArg (fun x => x % 2) heq
    simp only [Nat.shiftLeft_eq, pow_one] at hpar
    omega
  · rw [if_neg hb] at h
    simp only [Nat.xor_zero] at h
    have hlt : c < 2 ^ 15 := by
      rcases Nat.lt_or_ge c (2 ^ 15) with h' | h'
      · exact h'
      · exfalso
        have h15 : c.testBit 15 = true := by
          rw [Nat.testBit_to_div_mod]
          have e : (2 : Nat) ^ 15 = 32768 := by norm_num
          rw [e] at h' ⊢
          have hdiv : c / 32768 = 1 := by omega
          simp [hdiv]
        simp [h15] at hb
    rw [Nat.shiftLeft_eq, pow_one] at h
    omega

theorem crcRounds_lt (n c : Nat) (hc : c < 65536) : crcRounds n c < 65536 := by
  induction n generalizing c with
  | zero => exact hc
  | succ k ih => exact ih (crcRound c) (crcRound_lt c)

theorem crcRounds_linear (n a b : Nat) :
    crcRounds n (a ^^^ b) = crcRounds n a ^^^ crcRounds n b := by
  induction n generalizing a b with
  | zero => rfl
  | succ k ih =>
    show crcRounds k (crcRound (a ^^^ b)) = _
    rw [crcRound_linear, ih]
    rfl

theorem crcRounds_eq_zero (n c : Nat) (hc : c < 65536)
    (h : crcRounds n c = 0) : c = 0 := by
  induction n generalizing c with
  | zero => exact h
  | succ k ih =>
    exact crcRound_eq_zero c hc (ih (crcRound c) (crcRound_lt c) h)

theorem crcStep_lt (c b : Nat) : crcStep c b < 65536 := by
  show crcRounds 8 _ < 65536
  have : crcRounds 8 (c ^^^ b <<< 8) = crcRounds 7 (crcRound (c ^^^ b <<< 8)) := rfl
  rw [this]
  exact crcRounds_lt 7 _ (crcRound_lt _)

theorem crcStep_linear (c1 c2 b1 b2 : Nat) :
    crcStep (c1 ^^^ c2) (b1 ^^^ b2) = crcStep c1 b1 ^^^ crcStep c2 b2 := by
  unfold crcStep
  rw [← crcRounds_linear]
  congr 1
  rw [shiftLeft_xor_distrib]
  rw [Nat.xor_assoc, Nat.xor_assoc]
  congr 1
  rw [xor_left_comm]

theorem foldl_crcStep_linear (m1 : List Nat) :
    ∀ (m2 : List Nat) (c1 c2 : Nat), m1.length = m2.length →
      (List.zipWith (fun a b => a ^^^ b) m1 m2).foldl crcStep (c1 ^^^ c2)
        = m1.foldl crcStep c1 ^^^ m2.foldl crcStep c2 := by
  induction m1 with
  | nil =>
    intro m2 c1 c2 hlen
    cases m2 with
    | nil => rfl
    | cons b bs => simp at hlen
  | cons a as ih =>
    intro m2 c1 c2 hlen
    cases m2 with
    | nil => simp at hlen
    | cons b bs =>
      simp only [List.zipWith_cons_cons, List.foldl_cons]
      rw [crcStep_linear]
      exact ih bs (crcStep c1 a) (crcStep c2 b) (by simpa using hlen)

theorem calc_crc_xor (m1 m2 : List Nat) (hlen : m1.length = m2.length) :
    calc_crc (List.zipWith (fun a b => a ^^^ b) m1 m2)
      = calc_crc m1 ^^^ calc_crc m2 := by
  have h0 : (0 : Nat) = 0 ^^^ 0 := rfl
  unfold calc_crc
  rw [h0]
  exact foldl_crcStep_linear m1 m2 0 0 hlen

theorem calc_crc_lt (m : List Nat) : calc_crc m < 65536 := by
  unfold calc_crc
  have key : ∀ (l : List Nat) (c : Nat), c < 65536 → l.foldl crcStep c < 65536 := by
    intro l
    induction l with
    | nil => intro c hc; exact hc
    | cons b bs ih => intro c _; exact ih (crcStep c b) (crcStep_lt c b)
  exact key m 0 (by norm_num)

/-! ## A single-bit error pattern has nonzero CRC -/

/-- A message that is all zeros except for one byte `t` at position `pos`. -/
def oneHot (len pos t : Nat) : List Nat :=
  List.replicate pos 0 ++ t :: List.replicate (len - pos - 1) 0

theorem length_oneHot (len pos t : Nat) (h : pos < len) :
    (oneHot len pos t).length = len := by
  simp [oneHot]
  omega

theorem foldl_crcStep_zeros_zero (n : Nat) :
    (List.replicate n 0).foldl crcStep 0 = 0 := by
  induction n with
  | zero => rfl
  | succ k ih =>
    have hstep : crcStep 0 0 = 0 := by decide
    simpa [List.replicate_succ, hstep] using ih

theorem foldl_crcStep_zeros_ne_zero (n : Nat) :
    ∀ c : Nat, c < 65536 → c ≠ 0 → (List.replicate n 0).foldl crcStep c ≠ 0 := by
  induction n with
  | zero => intro c _ hc0; simpa using hc0
  | succ k ih =>
    intro c hc hc0
    have hstep : crcStep c 0 = crcRounds 8 c := by
      unfold crcStep
      norm_num
    simp only [List.replicate_succ, List.foldl_cons, hstep]
    exact ih _ (crcRounds_lt 8 c hc) (fun h => hc0 (crcRounds_eq_zero 8 c hc h))

theorem calc_crc_oneHot_ne_zero (len pos t : Nat) (hpos : pos < len)
    (ht0 : t ≠ 0) (ht : t < 256) : calc_crc (oneHot len pos t) ≠ 0 := by
  unfold calc_crc oneHot
  rw [List.foldl_append, foldl_crcStep_zeros_zero, List.foldl_cons]
  have hshift : t <<< 8 < 65536 := by
    rw [Nat.shiftLeft_eq]
    omega
  have hshift0 : t <<< 8 ≠ 0 := by
    rw [Nat.shiftLeft_eq]
    exact Nat.mul_ne_zero ht0 (by norm_num)
  have hc : crcStep 0 t ≠ 0 := by
    unfold crcStep
    rw [Nat.zero_xor]
    exact fun h => hshift0 (crcRounds_eq_zero 8 _ hshift h)
  exact foldl_crcStep_zeros_ne_zero _ _ (crcStep_lt 0 t) hc

theorem zipWith_xor_zeros (as : List Nat) :
    List.zipWith (fun a b => a ^^^ b) as (List.replicate as.length 0) = as := by
  induction as with
  | nil => rfl
  | cons x xs ihx => simpa [List.replicate_succ] using ihx

theorem set_eq_zipWith_oneHot (m : List Nat) (pos t : Nat) (hpos : pos < m.length) :
    m.set pos (m.getD pos 0 ^^^ t)
      = List.zipWith (fun a b => a ^^^ b) m (oneHot m.length pos t) := by
  induction m generalizing pos with
  | nil => simp at hpos
  | cons a as ih =>
    cases pos with
    | zero =>
      have hlen : (a :: as).length - 0 - 1 = as.length := by simp
      simp only [oneHot, hlen, List.replicate, List.nil_append,
        List.zipWith_cons_cons, List.set_cons_zero, List.getD_cons_zero]
      rw [zipWith_xor_zeros]
    | succ p =>
      have hp : p < as.length := by simpa using hpos
      have harith : (a :: as).length - (p + 1) - 1 = as.length - p - 1 := by
        simp
      simp only [oneHot, List.replicate_succ, List.cons_append,
        List.zipWith_cons_cons, List.set_cons_succ, List.getD_cons_succ,
        Nat.xor_zero, harith]
      have htail := ih p hp
      simp only [oneHot] at htail
      rw [htail]

/-- Flipping one bit of one byte changes the CRC, always. -/
theorem calc_crc_flip_ne (m : List Nat) (pos j : Nat)
    (hpos : pos < m.length) (hj : j < 8) :
    calc_crc (m.set pos (m.getD pos 0 ^^^ 1 <<< j)) ≠ calc_crc m := by
  rw [set_eq_zipWith_oneHot m pos _ hpos,
    calc_crc_xor m _ (length_oneHot m.length pos _ hpos).symm]
  intro h
  have hzero : calc_crc (oneHot m.length pos (1 <<< j)) = 0 :=
    (xor_eq_self_iff _ _).mp h
  have ht0 : 1 <<< j ≠ 0 := by
    rw [Nat.shiftLeft_eq, one_mul]
    exact Nat.pos_iff_ne_zero.mp (Nat.pos_pow_of_pos j (by norm_num))
  have ht256 : 1 <<< j < 256 := by
    rw [Nat.shiftLeft_eq, one_mul]
    have h8 : (2 : Nat) ^ j ≤ 2 ^ 7 := Nat.pow_le_pow_right (by norm_num) (by omega)
    omega
  exact calc_crc_oneHot_ne_zero m.length pos (1 <<< j) hpos ht0 ht256 hzero

/-! ## Frames and bit-flip detection (C9) -/

theorem or_shl8_shiftRight (a lo : Nat) (hlo : lo < 256) :
    ((a <<< 8) ||| lo) >>> 8 = a := by
  apply Nat.eq_of_testBit_eq
  intro i
  rw [Nat.testBit_shiftRight, Nat.testBit_or, Nat.testBit_shiftLeft]
  have h1 : 8 + i ≥ 8 := by omega
  have h2 : 8 + i - 8 = i := by omega
  have h3 : lo.testBit (8 + i) = false := by
    apply Nat.testBit_eq_false_of_lt
    calc lo < 256 := hlo
      _ = 2 ^ 8 := by norm_num
      _ ≤ 2 ^ (8 + i) := Nat.pow_le_pow_right (by norm_num) (by omega)
  simp [h1, h2, h3]

theorem or_shl8_and255 (a lo : Nat) (hlo : lo < 256) :
    ((a <<< 8) ||| lo) &&& 0xFF = lo := by
  have h255 : (0xFF : Nat) = 2 ^ 8 - 1 := by norm_num
  apply Nat.eq_of_testBit_eq
  intro i
  rw [Nat.testBit_and, Nat.testBit_or, Nat.testBit_shiftLeft, h255,
    Nat.testBit_two_pow_sub_one]
  by_cases h8 : i < 8
  · have hge : ¬ i ≥ 8 := by omega
    simp [h8, hge]
  · have hlo' : lo.testBit i = false := by
      apply Nat.testBit_eq_false_of_lt
      calc lo < 256 := hlo
        _ = 2 ^ 8 := by norm_num
        _ ≤ 2 ^ i := Nat.pow_le_pow_right (by norm_num) (by omega)
    simp [h8, hlo']

theorem crc_recompose (crc : Nat) (hcrc : crc < 65536) :
    ((crc >>> 8) <<< 8) ||| (crc &&& 0xFF) = crc := by
  have h255 : (0xFF : Nat) = 2 ^ 8 - 1 := by norm_num
  apply Nat.eq_of_testBit_eq
  intro i
  rw [Nat.testBit_or, Nat.testBit_shiftLeft, Nat.testBit_and, h255,
    Nat.testBit_two_pow_sub_one]
  by_cases h8 : 8 ≤ i
  · have harith : 8 + (i - 8) = i := by omega
    rw [Nat.testBit_shiftRight, harith]
    have hlt : ¬ i < 8 := by omega
    simp [h8, hlt]
  · have hge : ¬ i ≥ 8 := h8
    have h8' : i < 8 := by omega
    simp [hge, h8']

theorem frame_take (pl : List Nat) (x y : Nat) :
    ((pl ++ [x, y]).take ((pl ++ [x, y]).length - 2)) = pl := by
  have h : (pl ++ [x, y]).length - 2 = pl.length := by simp
  rw [h, List.take_left]

theorem frame_getD_hi (pl : List Nat) (x y : Nat) :
    (pl ++ [x, y]).getD pl.length 0 = x := by
  rw [List.getD_eq_getElem?_getD, List.getElem?_append_right (le_refl _)]
  simp

theorem frame_getD_lo (pl : List Nat) (x y : Nat) :
    (pl ++ [x, y]).getD (pl.length + 1) 0 = y := by
  rw [List.getD_eq_getElem?_getD,
    List.getElem?_append_right (by omega : pl.length ≤ pl.length + 1)]
  simp

/-- A frame whose trailing bytes disagree with the CRC over
`[addr, cmd] ++ payload` is rejected. -/
theorem parse_frame_err (pl : List Nat) (x y addr cmd : Nat) (hpl : pl ≠ [])
    (hcrc : calc_crc (addr :: cmd :: pl) ≠ (x <<< 8) ||| y) :
    parse_response (pl ++ [x, y]) addr cmd = .error "CRC mismatch" := by
  have hlen : (pl ++ [x, y]).length = pl.length + 2 := by simp
  have hlen1 : 1 ≤ pl.length := by
    cases pl
    · exact absurd rfl hpl
    · simp
  apply parse_response_def_err
  · omega
  · have hsub : (pl ++ [x, y]).length - 2 = pl.length := by omega
    have hsub1 : (pl ++ [x, y]).length - 1 = pl.length + 1 := by omega
    rw [hsub, hsub1]
    have ht : (pl ++ [x, y]).take pl.length = pl := List.take_left pl [x, y]
    rw [ht, frame_getD_hi, frame_getD_lo]
    exact hcrc

/-- A frame built by `mkFrame` over a nonempty payload is accepted. -/
theorem parse_mkFrame (addr cmd : Nat) (payload : List Nat)
    (hne : payload ≠ []) :
    parse_response (mkFrame addr cmd payload) addr cmd = .ok payload := by
  unfold mkFrame crcBytes
  have hlen : (payload ++ [calc_crc (addr :: cmd :: payload) >>> 8,
      calc_crc (addr :: cmd :: payload) &&& 0xFF]).length = payload.length + 2 := by
    simp
  have hlen1 : 1 ≤ payload.length := by
    cases payload
    · exact absurd rfl hne
    · simp
  have hsub : (payload ++ [calc_crc (addr :: cmd :: payload) >>> 8,
      calc_crc (addr :: cmd :: payload) &&& 0xFF]).length - 2 = payload.length := by
    omega
  have hsub1 : (payload ++ [calc_crc (addr :: cmd :: payload) >>> 8,
      calc_crc (addr :: cmd :: payload) &&& 0xFF]).length - 1 = payload.length + 1 := by
    omega
  have hok := parse_response_def_ok (payload ++ [calc_crc (addr :: cmd :: payload) >>> 8,
      calc_crc (addr :: cmd :: payload) &&& 0xFF]) addr cmd (by omega) ?_
  · rw [hok, hsub, List.take_left]
  · rw [hsub, hsub1, List.take_left, frame_getD_hi, frame_getD_lo]
    exact (crc_recompose _ (calc_crc_lt _)).symm

/-- Claim C9.  For every frame `payload ++ crc` that `parse_response` accepts
for `(addr, cmd)`, flipping any single bit — in the expected address, the
expected command, any payload byte, or either trailing CRC byte — makes
`parse_response` fail: every single-bit corruption is detected. -/
theorem parse_response_detects_bit_flip (addr cmd : Nat) (payload : List Nat)
    (j : Nat) (hj : j < 8)
    (hacc : parse_response (mkFrame addr cmd payload) addr cmd = .ok payload) :
    (∃ e, parse_response (mkFrame addr cmd payload) (addr ^^^ 1 <<< j) cmd
        = .error e)
    ∧ (∃ e, parse_response (mkFrame addr cmd payload) addr (cmd ^^^ 1 <<< j)
        = .error e)
    ∧ (∀ i, i < payload.length →
        ∃ e, parse_response
          (payload.set i (payload.getD i 0 ^^^ 1 <<< j)
            ++ crcBytes (calc_crc (addr :: cmd :: payload))) addr cmd
          = .error e)
    ∧ (∃ e, parse_response
        (payload ++ [calc_crc (addr :: cmd :: payload) >>> 8 ^^^ 1 <<< j,
          calc_crc (addr :: cmd :: payload) &&& 0xFF]) addr cmd = .error e)
    ∧ (∃ e, parse_response
        (payload ++ [calc_crc (addr :: cmd :: payload) >>> 8,
          (calc_crc (addr :: cmd :: payload) &&& 0xFF) ^^^ 1 <<< j]) addr cmd
        = .error e) := by
  have hne : payload ≠ [] := by
    intro hnil
    rw [hnil] at hacc
    simp [mkFrame, crcBytes, parse_response] at hacc
  have hlt : calc_crc (addr :: cmd :: payload) < 65536 := calc_crc_lt _
  have hlo256 : calc_crc (addr :: cmd :: payload) &&& 0xFF < 256 := by
    have := Nat.and_le_right (n := calc_crc (addr :: cmd :: payload)) (m := 0xFF)
    omega
  have hrecv : (calc_crc (addr :: cmd :: payload) >>> 8) <<< 8
      ||| (calc_crc (addr :: cmd :: payload) &&& 0xFF)
      = calc_crc (addr :: cmd :: payload) := crc_recompose _ hlt
  have ht0 : (1 <<< j) ≠ 0 := by
    rw [Nat.shiftLeft_eq, one_mul]
    exact Nat.pos_iff_ne_zero.mp (Nat.pos_pow_of_pos j (by norm_num))
  refine ⟨?_, ?_, ?_, ?_, ?_⟩
  · -- flipped address
    refine ⟨"CRC mismatch", ?_⟩
    unfold mkFrame crcBytes
    apply parse_frame_err _ _ _ _ _ hne
    rw [hrecv]
    have hset : (addr ^^^ 1 <<< j) :: cmd :: payload
        = (addr :: cmd :: payload).set 0
            ((addr :: cmd :: payload).getD 0 0 ^^^ 1 <<< j) := by
      simp
    rw [hset]
    exact calc_crc_flip_ne (addr :: cmd :: payload) 0 j (by simp) hj
  · -- flipped command
    refine ⟨"CRC mismatch", ?_⟩
    unfold mkFrame crcBytes
    apply parse_frame_err _ _ _ _ _ hne
    rw [hrecv]
    have hset : addr :: (cmd ^^^ 1 <<< j) :: payload
        = (addr :: cmd :: payload).set 1
            ((addr :: cmd :: payload).getD 1 0 ^^^ 1 <<< j) := by
      simp
    rw [hset]
    exact calc_crc_flip_ne (addr :: cmd :: payload) 1 j (by simp) hj
  · -- flipped payload byte
    intro i hi
    refine ⟨"CRC mismatch", ?_⟩
    unfold crcBytes
    have hne' : payload.set i (payload.getD i 0 ^^^ 1 <<< j) ≠ [] := by
      intro h
      have hl := congrArg List.length h
      rw [List.length_set] at hl
      simp only [List.length_nil] at hl
      omega
    apply parse_frame_err _ _ _ _ _ hne'
    rw [hrecv]
    have hset : addr :: cmd :: payload.set i (payload.getD i 0 ^^^ 1 <<< j)
        = (addr :: cmd :: payload).set (i + 2)
            ((addr :: cmd :: payload).getD (i + 2) 0 ^^^ 1 <<< j) := by
      simp [List.set_cons_succ, List.getD_cons_succ]
    rw [hset]
    have hlen2 : (addr :: cmd :: payload).length = payload.length + 2 := by simp
    exact calc_crc_flip_ne (addr :: cmd :: payload) (i + 2) j (by omega) hj
  · -- flipped high CRC byte
    refine ⟨"CRC mismatch", ?_⟩
    apply parse_frame_err _ _ _ _ _ hne
    intro hcontra
    have hcontra' := hrecv.trans hcontra
    have hx := congrArg (fun x => x >>> 8) hcontra'
    simp only at hx
    rw [or_shl8_shiftRight _ _ hlo256, or_shl8_shiftRight _ _ hlo256] at hx
    exact ht0 ((xor_eq_self_iff _ _).mp hx.symm)
  · -- flipped low CRC byte
    refine ⟨"CRC mismatch", ?_⟩
    apply parse_frame_err _ _ _ _ _ hne
    intro hcontra
    have hxlo : (calc_crc (addr :: cmd :: payload) &&& 0xFF) ^^^ 1 <<< j < 256 := by
      have hj256 : 1 <<< j < 256 := by
        rw [Nat.shiftLeft_eq, one_mul]
        have h8 : (2 : Nat) ^ j ≤ 2 ^ 7 :=
          Nat.pow_le_pow_right (by norm_num) (by omega)
        omega
      have h16 : (256 : Nat) = 2 ^ 8 := by norm_num
      rw [h16] at hlo256 hj256 ⊢
      exact Nat.xor_lt_two_pow hlo256 hj256
    have hcontra' := hrecv.trans hcontra
    have hx := congrArg (fun x => x &&& 0xFF) hcontra'
    simp only at hx
    rw [or_shl8_and255 _ _ hlo256, or_shl8_and255 _ _ hxlo] at hx
    exact ht0 ((xor_eq_self_iff _ _).mp hx.symm)

/-- Witness: a concrete accepted frame for address `0x80`, command 18,
payload `[0]`, whose address with bit 0 flipped is rejected. -/
theorem parse_response_detects_bit_flip_witness :
    (0 < 8 ∧ parse_response (mkFrame 128 18 [0]) 128 18 = .ok [0])
    ∧ (∃ e, parse_response (mkFrame 128 18 [0]) (128 ^^^ 1 <<< 0) 18
        = .error e) :=
  ⟨⟨by norm_num, parse_mkFrame 128 18 [0] (by simp)⟩,
    (parse_response_detects_bit_flip 128 18 [0] 0 (by norm_num)
      (parse_mkFrame 128 18 [0] (by simp))).1⟩

/-! ## Wire integer codecs

The Rust code reads multi-byte fields either with explicit shift-or
expressions (`read_speed_sync`, `read_motor_currents_sync`, ...) or with
the library functions `iN::from_be_bytes` / `iN::to_be_bytes`; both are
modelled here over `Nat`/`Int` with two's-complement reinterpretation. -/

/-- Big-endian `u32` from four bytes, mirroring the explicit shift-or in
the source. -/
def u32FromBytes (b0 b1 b2 b3 : Nat) : Nat :=
  (b0 <<< 24) ||| (b1 <<< 16) ||| (b2 <<< 8) ||| b3

/-- Big-endian `u16` from two bytes. -/
def u16FromBytes (b0 b1 : Nat) : Nat :=
  (b0 <<< 8) ||| b1

/-- Reinterpret a `u32` value as an `i32` (the Rust `as i32` cast). -/
def u32ToI32 (u : Nat) : Int :=
  if u < 2147483648 then (u : Int) else (u : Int) - 4294967296

/-- Reinterpret a `u16` value as an `i16` (the Rust `as i16` cast). -/
def u16ToI16 (u : Nat) : Int :=
  if u < 32768 then (u : Int) else (u : Int) - 65536

/-- Semantics of `i32::from_be_bytes`. -/
def i32FromBeBytes (b0 b1 b2 b3 : Nat) : Int :=
  u32ToI32 (b0 * 16777216 + b1 * 65536 + b2 * 256 + b3)

/-- Semantics of `i16::from_be_bytes`. -/
def i16FromBeBytes (b0 b1 : Nat) : Int :=
  u16ToI16 (b0 * 256 + b1)

/-- Semantics of `i32::to_be_bytes`: the two's-complement image of `x`
split into four big-endian bytes. -/
def i32ToBeBytes (x : Int) : List Nat :=
  [(x % 4294967296).toNat / 16777216 % 256,
   (x % 4294967296).toNat / 65536 % 256,
   (x % 4294967296).toNat / 256 % 256,
   (x % 4294967296).toNat % 256]

theorem i32_roundtrip_fields (x : Int)
    (h1 : -2147483648 ≤ x) (h2 : x < 2147483648) :
    i32FromBeBytes ((x % 4294967296).toNat / 16777216 % 256)
      ((x % 4294967296).toNat / 65536 % 256)
      ((x % 4294967296).toNat / 256 % 256)
      ((x % 4294967296).toNat % 256) = x := by
  have hu : ((x % 4294967296).toNat : Int) = x % 4294967296 :=
    Int.toNat_of_nonneg (Int.emod_nonneg _ (by norm_num))
  unfold i32FromBeBytes u32ToI32
  split <;> omega

/-! ## PID parameter sets (device.rs lines 416-455) -/

structure VelocityPidParams where
  p : Int
  i : Int
  d : Int
  qpps : Int
deriving DecidableEq

structure PositionPidParams where
  p : Int
  i : Int
  d : Int
  max_i : Int
  deadzone : Int
  min : Int
  max : Int
deriving DecidableEq

/-- Payload of the velocity-PID write (`set_velocity_pid_sync`, device.rs
lines 653-656): the fields are sent in wire order D, P, I, QPPS, each as
a big-endian `i32`. -/
def set_velocity_pid_payload (params : VelocityPidParams) : List Nat :=
  i32ToBeBytes params.d ++ i32ToBeBytes params.p
    ++ i32ToBeBytes params.i ++ i32ToBeBytes params.qpps

/-- Payload decoder of the velocity-PID read reply
(`read_velocity_pid_sync`, device.rs lines 611-619): P, I, D, QPPS each
as a big-endian `i32`, requiring at least 16 payload bytes. -/
def parse_velocity_pid_payload (result : List Nat) :
    Except String VelocityPidParams :=
  if 16 ≤ result.length then
    .ok { p := i32FromBeBytes (result.getD 0 0) (result.getD 1 0)
              (result.getD 2 0) (result.getD 3 0),
          i := i32FromBeBytes (result.getD 4 0) (result.getD 5 0)
              (result.getD 6 0) (result.getD 7 0),
          d := i32FromBeBytes (result.getD 8 0) (result.getD 9 0)
              (result.getD 10 0) (result.getD 11 0),
          qpps := i32FromBeBytes (result.getD 12 0) (result.getD 13 0)
              (result.getD 14 0) (result.getD 15 0) }
  else .error "Invalid response length for velocity PID read"

/-! ## Driver response handling (device.rs)

Each definition is the pure response-processing tail of the corresponding
`*_sync` operation: the function of the received byte vector that the code
computes after `send_and_read` returns.  Where the Rust code indexes a
slice without a bounds check, the embedding returns `Option.none` to model
the index-out-of-bounds panic; `some` carries the returned `Result`. -/

/-- Response check of `drive_simply_sync` (line 196): success iff the
first byte is `0xFF`; the CRC is never inspected. -/
def drive_simply_ack (resp : List Nat) : Except String Unit :=
  if resp.head? = some 0xFF then .ok () else .error "Failed to drive motor"

/-- Response check of `drive_pwm_sync` (line 220): success iff the first
byte is `0xFF`; the CRC is never inspected. -/
def drive_pwm_ack (resp : List Nat) : Except String Unit :=
  if resp.head? = some 0xFF then .ok ()
  else .error "Failed to drive motor PWM"

/-- Response handling of `read_speed_sync` (lines 238-249).  After CRC
validation the code reads `data[0] .. data[4]` without a length check;
`none` models the panic when the payload is shorter than 5 bytes. -/
def read_speed_resp (resp : List Nat) (addr motor_index : Nat) :
    Option (Except String Int) :=
  if resp.isEmpty then some (.error "The response is empty")
  else
    match parse_response resp addr (if motor_index = 1 then 18 else 19) with
    | .ok data =>
      if data.length < 5 then none
      else
        let speed := u32FromBytes (data.getD 0 0) (data.getD 1 0)
          (data.getD 2 0) (data.getD 3 0)
        let status := data.getD 4 0
        if status = 0 then some (.ok (u32ToI32 speed))
        else if status = 1 then some (.ok (-(u32ToI32 speed)))
        else some (.error "Invalid value")
    | .error _ => some (.error "Invalid response")

/-- Response handling of `read_motor_currents_sync` (lines 350-359).
After CRC validation the code reads `data[0] .. data[3]` without a length
check; `none` models the panic when the payload is shorter than 4. -/
def read_motor_currents_resp (resp : List Nat) (addr : Nat) :
    Option (Except String (Nat × Nat)) :=
  if resp.isEmpty then some (.error "Data is empty")
  else
    match parse_response resp addr 49 with
    | .ok data =>
      if data.length < 4 then none
      else some (.ok (u16FromBytes (data.getD 0 0) (data.getD 1 0),
        u16FromBytes (data.getD 2 0) (data.getD 3 0)))
    | .error _ => some (.error "Failed to parse")

/-- Response handling of `read_pwm_values_sync` (lines 377-391), with the
same unchecked indexing of `data[0] .. data[3]`. -/
def read_pwm_values_resp (resp : List Nat) (addr : Nat) :
    Option (Except String (Int × Int)) :=
  if resp.isEmpty then some (.error "Empty response")
  else
    match parse_response resp addr 48 with
    | .ok data =>
      if data.length < 4 then none
      else some (.ok (u16ToI16 (u16FromBytes (data.getD 0 0) (data.getD 1 0)),
        u16ToI16 (u16FromBytes (data.getD 2 0) (data.getD 3 0))))
    | .error e => some (.error ("Failed to parse: " ++ e))

/-- Response handling of `reset_encoder_sync` (lines 411-413): the CRC
error from `parse_response` propagates; success iff the first payload
byte is `0xFF`. -/
def reset_encoder_resp (resp : List Nat) (addr : Nat) : Except String Unit :=
  match parse_response resp addr 20 with
  | .error e => .error e
  | .ok result =>
    if result.head? = some 0xFF then .ok ()
    else .error "Failed to reset encoder"

/-- The 20 named fields decoded by `read_all_status_sync`. -/
structure AllStatus where
  timertick : Nat
  errors : Nat
  temp1 : Int
  temp2 : Int
  main_batt : Int
  logic_batt : Int
  m1_pwm : Int
  m2_pwm : Int
  m1_current : Int
  m2_current : Int
  m1_encoder : Int
  m2_encoder : Int
  m1_speed : Int
  m2_speed : Int
  m1_ispeed : Int
  m2_ispeed : Int
  m1_speed_err : Int
  m2_speed_err : Int
  m1_pos_err : Int
  m2_pos_err : Int
deriving DecidableEq

/-- Response handling of `read_all_status_sync` (lines 286-332): CRC
validation, a 56-byte length check, then fixed-offset field decoding. -/
def read_all_status_resp (resp : List Nat) (addr : Nat) :
    Except String AllStatus :=
  if resp.isEmpty then .error "Empty response"
  else
    match parse_response resp addr 73 with
    | .error e => .error e
    | .ok r =>
      if r.length < 56 then .error "Invalid response length for Read All Status"
      else .ok {
        timertick := u32FromBytes (r.getD 0 0) (r.getD 1 0) (r.getD 2 0) (r.getD 3 0),
        errors := u32FromBytes (r.getD 4 0) (r.getD 5 0) (r.getD 6 0) (r.getD 7 0),
        temp1 := i16FromBeBytes (r.getD 8 0) (r.getD 9 0),
        temp2 := i16FromBeBytes (r.getD 10 0) (r.getD 11 0),
        main_batt := i16FromBeBytes (r.getD 12 0) (r.getD 13 0),
        logic_batt := i16FromBeBytes (r.getD 14 0) (r.getD 15 0),
        m1_pwm := i16FromBeBytes (r.getD 16 0) (r.getD 17 0),
        m2_pwm := i16FromBeBytes (r.getD 18 0) (r.getD 19 0),
        m1_current := i16FromBeBytes (r.getD 20 0) (r.getD 21 0),
        m2_current := i16FromBeBytes (r.getD 22 0) (r.getD 23 0),
        m1_encoder := i32FromBeBytes (r.getD 24 0) (r.getD 25 0) (r.getD 26 0) (r.getD 27 0),
        m2_encoder := i32FromBeBytes (r.getD 28 0) (r.getD 29 0) (r.getD 30 0) (r.getD 31 0),
        m1_speed := i32FromBeBytes (r.getD 32 0) (r.getD 33 0) (r.getD 34 0) (r.getD 35 0),
        m2_speed := i32FromBeBytes (r.getD 36 0) (r.getD 37 0) (r.getD 38 0) (r.getD 39 0),
        m1_ispeed := i32FromBeBytes (r.getD 40 0) (r.getD 41 0) (r.getD 42 0) (r.getD 43 0),
        m2_ispeed := i32FromBeBytes (r.getD 44 0) (r.getD 45 0) (r.getD 46 0) (r.getD 47 0),
        m1_speed_err := i16FromBeBytes (r.getD 48 0) (r.getD 49 0),
        m2_speed_err := i16FromBeBytes (r.getD 50 0) (r.getD 51 0),
        m1_pos_err := i16FromBeBytes (r.getD 52 0) (r.getD 53 0),
        m2_pos_err := i16FromBeBytes (r.getD 54 0) (r.getD 55 0) }

/-- Response handling of `read_velocity_pid_sync` (lines 608-619). -/
def read_velocity_pid_resp (resp : List Nat) (addr motor_index : Nat) :
    Except String VelocityPidParams :=
  match parse_response resp addr (if motor_index = 1 then 55 else 56) with
  | .error e => .error e
  | .ok result => parse_velocity_pid_payload result

/-- Response handling of `set_velocity_pid_sync` (lines 667-675). -/
def set_velocity_pid_ack (resp : List Nat) (addr motor_index : Nat) :
    Except String Unit :=
  match parse_response resp addr (if motor_index = 1 then 28 else 29) with
  | .error e => .error e
  | .ok result =>
    if result.head? = some 0xFF then .ok ()
    else .error "Failed to set velocity PID"

/-- Response handling of `read_position_pid_sync` (lines 495-510). -/
def read_position_pid_resp (resp : List Nat) (addr motor_index : Nat) :
    Except String PositionPidParams :=
  match parse_response resp addr (if motor_index = 1 then 63 else 64) with
  | .error e => .error e
  | .ok r =>
    if 28 ≤ r.length then
      .ok { p := i32FromBeBytes (r.getD 0 0) (r.getD 1 0) (r.getD 2 0) (r.getD 3 0),
            i := i32FromBeBytes (r.getD 4 0) (r.getD 5 0) (r.getD 6 0) (r.getD 7 0),
            d := i32FromBeBytes (r.getD 8 0) (r.getD 9 0) (r.getD 10 0) (r.getD 11 0),
            max_i := i32FromBeBytes (r.getD 12 0) (r.getD 13 0) (r.getD 14 0) (r.getD 15 0),
            deadzone := i32FromBeBytes (r.getD 16 0) (r.getD 17 0) (r.getD 18 0) (r.getD 19 0),
            min := i32FromBeBytes (r.getD 20 0) (r.getD 21 0) (r.getD 22 0) (r.getD 23 0),
            max := i32FromBeBytes (r.getD 24 0) (r.getD 25 0) (r.getD 26 0) (r.getD 27 0) }
    else .error "Invalid response length for PID read"

/-- Response handling of `set_position_pid_sync` (lines 563-571). -/
def set_position_pid_ack (resp : List Nat) (addr motor_index : Nat) :
    Except String Unit :=
  match parse_response resp addr (if motor_index = 1 then 61 else 62) with
  | .error e => .error e
  | .ok result =>
    if result.head? = some 0xFF then .ok ()
    else .error "Failed to set PID"

/-! ## Claim C2: which operations validate the response CRC -/

/-- Claim C2, counterexample.  The response `[0xFF, 0x00, 0x00]` carries a
trailing CRC of 0, which matches neither `calc_crc [0x80, 6, 0xFF]` nor
`calc_crc [0x80, 32, 0xFF]`, yet both Drive acknowledgement checks accept
it: Drive and Drive PWM do not validate the response CRC. -/
theorem drive_ack_ignores_crc_counterexample :
    drive_simply_ack [255, 0, 0] = .ok ()
    ∧ drive_pwm_ack [255, 0, 0] = .ok ()
    ∧ parse_response [255, 0, 0] 128 6 = .error "CRC mismatch"
    ∧ parse_response [255, 0, 0] 128 32 = .error "CRC mismatch" := by
  refine ⟨by decide, by decide, by decide, by decide⟩

/-- Claim C2, amended.  Every payload-carrying operation (read speed, currents,
PWM readback, all-status, encoder reset, PID reads and writes) validates
the response against its trailing CRC — a failed `parse_response` is
never accepted; but Drive (6/7) and Drive PWM (32/33) never check the
CRC: they succeed exactly when the first response byte is `0xFF`. -/
theorem response_validation_amended (resp : List Nat) (addr : Nat)
    (hne : resp ≠ []) :
    (∀ m, (parse_response resp addr (if m = 1 then 18 else 19)).isOk = false →
        read_speed_resp resp addr m = some (.error "Invalid response"))
    ∧ ((parse_response resp addr 49).isOk = false →
        read_motor_currents_resp resp addr = some (.error "Failed to parse"))
    ∧ ((parse_response resp addr 48).isOk = false →
        ∃ e, read_pwm_values_resp resp addr = some (.error e))
    ∧ ((parse_response resp addr 73).isOk = false →
        ∃ e, read_all_status_resp resp addr = .error e)
    ∧ ((parse_response resp addr 20).isOk = false →
        ∃ e, reset_encoder_resp resp addr = .error e)
    ∧ (∀ m, (parse_response resp addr (if m = 1 then 55 else 56)).isOk = false →
        ∃ e, read_velocity_pid_resp resp addr m = .error e)
    ∧ (∀ m, (parse_response resp addr (if m = 1 then 28 else 29)).isOk = false →
        ∃ e, set_velocity_pid_ack resp addr m = .error e)
    ∧ (∀ m, (parse_response resp addr (if m = 1 then 63 else 64)).isOk = false →
        ∃ e, read_position_pid_resp resp addr m = .error e)
    ∧ (∀ m, (parse_response resp addr (if m = 1 then 61 else 62)).isOk = false →
        ∃ e, set_position_pid_ack resp addr m = .error e)
    ∧ (drive_simply_ack resp = .ok () ↔ resp.head? = some 255)
    ∧ (drive_pwm_ack resp = .ok () ↔ resp.head? = some 255) := by
  have hempty : resp.isEmpty = false := by
    cases resp
    · exact absurd rfl hne
    · rfl
  refine ⟨?_, ?_, ?_, ?_, ?_, ?_, ?_, ?_, ?_, ?_, ?_⟩
  · intro m hp
    unfold read_speed_resp
    rw [hempty]
    cases hparse : parse_response resp addr (if m = 1 then 18 else 19) with
    | ok data => rw [hparse, isOk_ok] at hp; exact absurd hp (by simp)
    | error e => simp
  · intro hp
    unfold read_motor_currents_resp
    rw [hempty]
    cases hparse : parse_response resp addr 49 with
    | ok data => rw [hparse, isOk_ok] at hp; exact absurd hp (by simp)
    | error e => simp
  · intro hp
    unfold read_pwm_values_resp
    rw [hempty]
    cases hparse : parse_response resp addr 48 with
    | ok data => rw [hparse, isOk_ok] at hp; exact absurd hp (by simp)
    | error e => exact ⟨"Failed to parse: " ++ e, by simp⟩
  · intro hp
    unfold read_all_status_resp
    rw [hempty]
    cases hparse : parse_response resp addr 73 with
    | ok data => rw [hparse, isOk_ok] at hp; exact absurd hp (by simp)
    | error e => exact ⟨e, by simp⟩
  · intro hp
    unfold reset_encoder_resp
    cases hparse : parse_response resp addr 20 with
    | ok data => rw [hparse, isOk_ok] at hp; exact absurd hp (by simp)
    | error e => exact ⟨e, by simp⟩
  · intro m hp
    unfold read_velocity_pid_resp
    cases hparse : parse_response resp addr (if m = 1 then 55 else 56) with
    | ok data => rw [hparse, isOk_ok] at hp; exact absurd hp (by simp)
    | error e => exact ⟨e, by simp⟩
  · intro m hp
    unfold set_velocity_pid_ack
    cases hparse : parse_response resp addr (if m = 1 then 28 else 29) with
    | ok data => rw [hparse, isOk_ok] at hp; exact absurd hp (by simp)
    | error e => exact ⟨e, by simp⟩
  · intro m hp
    unfold read_position_pid_resp
    cases hparse : parse_response resp addr (if m = 1 then 63 else 64) with
    | ok data => rw [hparse, isOk_ok] at hp; exact absurd hp (by simp)
    | error e => exact ⟨e, by simp⟩
  · intro m hp
    unfold set_position_pid_ack
    cases hparse : parse_response resp addr (if m = 1 then 61 else 62) with
    | ok data => rw [hparse, isOk_ok] at hp; exact absurd hp (by simp)
    | error e => exact ⟨e, by simp⟩
  · unfold drive_simply_ack
    constructor
    · intro h
      by_contra hh
      rw [if_neg hh] at h
      exact absurd h (by simp)
    · intro h
      rw [if_pos h]
  · unfold drive_pwm_ack
    constructor
    · intro h
      by_contra hh
      rw [if_neg hh] at h
      exact absurd h (by simp)
    · intro h
      rw [if_pos h]

/-- Witness: on the concrete CRC-mismatching response `[0xFF, 0, 0]`,
the reset-encoder handler rejects while the Drive handler accepts. -/
theorem response_validation_amended_witness :
    ([255, 0, 0] : List Nat) ≠ []
    ∧ (parse_response [255, 0, 0] 128 20).isOk = false
    ∧ (∃ e, reset_encoder_resp [255, 0, 0] 128 = .error e)
    ∧ (drive_simply_ack [255, 0, 0] = .ok () ↔
        ([255, 0, 0] : List Nat).head? = some 255) := by
  refine ⟨by decide, by decide, ?_, ?_⟩
  · exact (response_validation_amended [255, 0, 0] 128 (by decide)).2.2.2.2.1
      (by decide)
  · exact (response_validation_amended [255, 0, 0] 128 (by decide)).2.2.2.2.2.2.2.2.2.1

/-! ## Claim C3: velocity-PID write/read round-trip -/

/-- Claim C3, counterexample.  Feeding the write payload for `{P=1, I=2, D=3,
QPPS=4}` to the read-reply decoder yields `{P=3, I=1, D=2, QPPS=4}`, not
the original parameters: the write wire order is D, P, I, QPPS while the
reply is decoded as P, I, D, QPPS, so the composition permutes the gains. -/
theorem velocity_pid_roundtrip_counterexample :
    parse_velocity_pid_payload (set_velocity_pid_payload ⟨1, 2, 3, 4⟩)
      = .ok ⟨3, 1, 2, 4⟩
    ∧ (⟨3, 1, 2, 4⟩ : VelocityPidParams) ≠ ⟨1, 2, 3, 4⟩ := by
  refine ⟨by decide, by decide⟩

/-- Claim C3, amended.  For every parameter set of 32-bit signed integers, the
reply decoder applied to the write payload recovers each 32-bit value
bit-exactly but permutes the gain fields: it returns `{p := D, i := P,
d := I, qpps := QPPS}`; only `QPPS` round-trips to its own field. -/
theorem velocity_pid_roundtrip_permuted (params : VelocityPidParams)
    (hp1 : -2147483648 ≤ params.p) (hp2 : params.p < 2147483648)
    (hi1 : -2147483648 ≤ params.i) (hi2 : params.i < 2147483648)
    (hd1 : -2147483648 ≤ params.d) (hd2 : params.d < 2147483648)
    (hq1 : -2147483648 ≤ params.qpps) (hq2 : params.qpps < 2147483648) :
    parse_velocity_pid_payload (set_velocity_pid_payload params)
      = .ok ⟨params.d, params.p, params.i, params.qpps⟩ := by
  unfold set_velocity_pid_payload i32ToBeBytes parse_velocity_pid_payload
  simp only [List.cons_append, List.nil_append, List.getD_cons_zero,
    List.getD_cons_succ, List.length_cons, List.length_nil]
  rw [if_pos (by omega)]
  rw [i32_roundtrip_fields params.p hp1 hp2, i32_roundtrip_fields params.i hi1 hi2,
    i32_roundtrip_fields params.d hd1 hd2, i32_roundtrip_fields params.qpps hq1 hq2]

/-- Witness: the permuted round-trip at the concrete parameter set
`{P=1, I=2, D=3, QPPS=4}`. -/
theorem velocity_pid_roundtrip_permuted_witness :
    parse_velocity_pid_payload (set_velocity_pid_payload ⟨1, 2, 3, 4⟩)
      = .ok ⟨3, 1, 2, 4⟩ :=
  velocity_pid_roundtrip_permuted ⟨1, 2, 3, 4⟩ (by norm_num) (by norm_num)
    (by norm_num) (by norm_num) (by norm_num) (by norm_num)
    (by norm_num) (by norm_num)

/-! ## Claim C4: unchecked payload indexing after CRC validation -/

/-- Claim C4.  A response whose payload is the single byte `0x00` with a valid
CRC passes `parse_response`, but `read_speed_sync` then reads
`data[1] .. data[4]` and `read_motor_currents_sync` reads `data[1]`,
`data[2]`, `data[3]` out of bounds: both panic (modelled by `none`)
instead of returning an error. -/
theorem short_payload_panics :
    parse_response (mkFrame 128 18 [0]) 128 18 = .ok [0]
    ∧ read_speed_resp (mkFrame 128 18 [0]) 128 1 = none
    ∧ parse_response (mkFrame 128 49 [0]) 128 49 = .ok [0]
    ∧ read_motor_currents_resp (mkFrame 128 49 [0]) 128 = none := by
  refine ⟨by decide, by decide, by decide, by decide⟩

/-! ## Simulation engine (sim.rs)

The `f32` arithmetic of the simulator is modelled as exact rational
arithmetic with the same formulas, constants and control flow; real time
(`Instant::now()`) enters as an explicit `now : ℚ` parameter.  The Rust
float-to-integer `as` casts saturate, and are modelled accordingly. -/

/-- Rust `f32::clamp` / `f64::clamp` for `lo ≤ hi`. -/
def rclamp (x lo hi : ℚ) : ℚ := min (max x lo) hi

/-- Truncation toward zero: the fractional part a float-to-int cast drops. -/
def ratTrunc (q : ℚ) : Int := if 0 ≤ q then q.floor else q.ceil

/-- Rust `as i64` on a float value: truncate, saturating at the ends. -/
def f32ToI64 (q : ℚ) : Int :=
  min (max (ratTrunc q) (-9223372036854775808)) 9223372036854775807

/-- Wrap an integer into the `i64` range. -/
def wrapI64 (x : Int) : Int :=
  (x + 9223372036854775808) % 18446744073709551616 - 9223372036854775808

/-- Rust `i64::wrapping_add`. -/
def i64WrappingAdd (a b : Int) : Int := wrapI64 (a + b)

/-- Mutable simulator state (sim.rs lines 8-40), with `f32` fields as `ℚ`
and the `Instant` timestamp as `Option ℚ`. -/
structure SimState where
  m1_speed : Nat
  m2_speed : Nat
  m1_pwm : Int
  m2_pwm : Int
  m1_mode_pwm : Bool
  m2_mode_pwm : Bool
  m1_vel : ℚ
  m2_vel : ℚ
  m1_encoder : Int
  m2_encoder : Int
  m1_velocity_pid : VelocityPidParams
  m2_velocity_pid : VelocityPidParams
  m1_position_pid : PositionPidParams
  m2_position_pid : PositionPidParams
  m1_vi : ℚ
  m2_vi : ℚ
  m1_v_last_err : ℚ
  m2_v_last_err : ℚ
  last_update : Option ℚ
  tau_m1 : ℚ
  gain_m1 : ℚ
  tau_m2 : ℚ
  gain_m2 : ℚ
deriving DecidableEq

/-- The initial `SIM_STATE` (sim.rs lines 43-71). -/
def initSimState : SimState where
  m1_speed := 64
  m2_speed := 64
  m1_pwm := 0
  m2_pwm := 0
  m1_mode_pwm := false
  m2_mode_pwm := false
  m1_vel := 0
  m2_vel := 0
  m1_encoder := 0
  m2_encoder := 0
  m1_velocity_pid := ⟨0x00010000, 0x00008000, 0x00004000, 44000⟩
  m2_velocity_pid := ⟨0x00010000, 0x00008000, 0x00004000, 44000⟩
  m1_position_pid := ⟨0x00010000, 0x00008000, 0x00004000, 0x00002000, 0, -32767, 32767⟩
  m2_position_pid := ⟨0x00010000, 0x00008000, 0x00004000, 0x00002000, 0, -32767, 32767⟩
  m1_vi := 0
  m2_vi := 0
  m1_v_last_err := 0
  m2_v_last_err := 0
  last_update := none
  tau_m1 := 1/10
  gain_m1 := 100
  tau_m2 := 1/10
  gain_m2 := 100

/-- One 10 ms sub-step of the integration loop (sim.rs lines 140-146):
first-order lag toward each target, then encoder accumulation of
`velocity × sub_dt` truncated to `i64` with a wrapping add. -/
def simSubStep (tau1 tau2 t1 t2 sub_dt : ℚ) :
    ℚ × ℚ × Int × Int → ℚ × ℚ × Int × Int :=
  fun st =>
    let v1 := st.1 + (sub_dt / tau1) * (t1 - st.1)
    let v2 := st.2.1 + (sub_dt / tau2) * (t2 - st.2.1)
    let e1 := i64WrappingAdd st.2.2.1 (f32ToI64 (v1 * sub_dt))
    let e2 := i64WrappingAdd st.2.2.2 (f32ToI64 (v2 * sub_dt))
    (v1, v2, e1, e2)

/-- The integration loop: `steps` applications of `simSubStep`. -/
def simIntegrate (tau1 tau2 t1 t2 sub_dt : ℚ) :
    Nat → ℚ × ℚ × Int × Int → ℚ × ℚ × Int × Int
  | 0, st => st
  | n + 1, st => simIntegrate tau1 tau2 t1 t2 sub_dt n (simSubStep tau1 tau2 t1 t2 sub_dt st)

theorem simIntegrate_eq_iterate (tau1 tau2 t1 t2 sub_dt : ℚ) (n : Nat)
    (st : ℚ × ℚ × Int × Int) :
    simIntegrate tau1 tau2 t1 t2 sub_dt n st
      = (simSubStep tau1 tau2 t1 t2 sub_dt)^[n] st := by
  induction n generalizing st with
  | zero => rfl
  | succ k ih =>
    rw [Function.iterate_succ_apply]
    exact ih _

/-- Embedding of `sim_update` (sim.rs lines 73-149).  `now` is the value
`Instant::now()` observed on entry. -/
def sim_update (now : ℚ) (s : SimState) : SimState :=
  match s.last_update with
  | none => { s with last_update := some now }
  | some last =>
    let raw_dt := now - last
    let dt := rclamp raw_dt 0 (1/5)
    if dt ≤ 1/1000000 then { s with last_update := some now }
    else
      let r1 :=
        if s.m1_mode_pwm then
          (rclamp ((s.m1_pwm : ℚ) / 32767) (-1) 1, s.m1_vi, s.m1_v_last_err)
        else
          let params := s.m1_velocity_pid
          let set_v := (((s.m1_speed : ℚ) - 64) / 63) * (params.qpps : ℚ)
          let err := set_v - s.m1_vel
          let p := (params.p : ℚ) / 65536
          let i := (params.i : ℚ) / 65536
          let d := (params.d : ℚ) / 65536
          let vi := s.m1_vi + err * dt
          let deriv := (err - s.m1_v_last_err) / dt
          let control := p * err + i * vi + d * deriv
          (rclamp (control / (params.qpps : ℚ)) (-1) 1, vi, err)
      let r2 :=
        if s.m2_mode_pwm then
          (rclamp ((s.m2_pwm : ℚ) / 32767) (-1) 1, s.m2_vi, s.m2_v_last_err)
        else
          let params := s.m2_velocity_pid
          let set_v := (((s.m2_speed : ℚ) - 64) / 63) * (params.qpps : ℚ)
          let err := set_v - s.m2_vel
          let p := (params.p : ℚ) / 65536
          let i := (params.i : ℚ) / 65536
          let d := (params.d : ℚ) / 65536
          let vi := s.m2_vi + err * dt
          let deriv := (err - s.m2_v_last_err) / dt
          let control := p * err + i * vi + d * deriv
          (rclamp (control / (params.qpps : ℚ)) (-1) 1, vi, err)
      let m1_target := s.gain_m1 * r1.1
      let m2_target := s.gain_m2 * r2.1
      let steps := (dt / (1/100)).ceil.toNat
      let sub_dt := dt / (steps : ℚ)
      let r := simIntegrate s.tau_m1 s.tau_m2 m1_target m2_target sub_dt steps
        (s.m1_vel, s.m2_vel, s.m1_encoder, s.m2_encoder)
      { s with
        m1_vel := r.1
        m2_vel := r.2.1
        m1_encoder := r.2.2.1
        m2_encoder := r.2.2.2
        m1_vi := r1.2.1
        m1_v_last_err := r1.2.2
        m2_vi := r2.2.1
        m2_v_last_err := r2.2.2
        last_update := some now }

/-- The simulator step never touches the command inputs: speed bytes, PWM
duties and mode flags are read, not written. -/
theorem sim_update_preserves_commands (now : ℚ) (s : SimState) :
    (sim_update now s).m1_pwm = s.m1_pwm
    ∧ (sim_update now s).m2_pwm = s.m2_pwm
    ∧ (sim_update now s).m1_mode_pwm = s.m1_mode_pwm
    ∧ (sim_update now s).m2_mode_pwm = s.m2_mode_pwm
    ∧ (sim_update now s).m1_speed = s.m1_speed
    ∧ (sim_update now s).m2_speed = s.m2_speed := by
  cases h : s.last_update with
  | none => simp [sim_update, h]
  | some l =>
    simp only [sim_update, h]
    split <;> simp

/-- A step whose clamped `dt` is at most 1 µs only refreshes the
timestamp. -/
theorem sim_update_noop (now l : ℚ) (s : SimState)
    (hl : s.last_update = some l)
    (hdt : rclamp (now - l) 0 (1/5) ≤ 1/1000000) :
    sim_update now s = { s with last_update := some now } := by
  simp only [sim_update, hl]
  rw [if_pos hdt]

/-- Refreshing the timestamp with the value it already holds is the
identity. -/
theorem set_last_update_self (s : SimState) (l : ℚ) (h : s.last_update = some l) :
    { s with last_update := some l } = s := by
  cases s
  simp only [SimState.mk.injEq]
  simp at h
  simp [h]

/-! ## Claim C5: actuator command structure of the simulated backend -/

/-- Spec-side: the PWM-mode actuator command `clamp(pwm/32767, -1, 1)`,
written from the claim. -/
def pwmUSpec (pwm : Int) : ℚ := rclamp ((pwm : ℚ) / 32767) (-1) 1

/-- Spec-side: the claim's internal velocity PID.  Setpoint
`((speed_byte - 64)/63) × QPPS`, error against current velocity, error
accumulated into the integrator, derivative on the error, gains unpacked
from 16.16 fixed point, output normalized by QPPS and clamped to
`[-1, 1]`.  Returns the command together with the new integrator and
last-error values. -/
def velPidSpec (params : VelocityPidParams) (speed_byte : Nat)
    (vel vi last_err dt : ℚ) : ℚ × ℚ × ℚ :=
  let setpoint := (((speed_byte : ℚ) - 64) / 63) * (params.qpps : ℚ)
  let err := setpoint - vel
  let integral := vi + err * dt
  let deriv := (err - last_err) / dt
  let u := rclamp (((params.p : ℚ) / 65536 * err + (params.i : ℚ) / 65536 * integral
    + (params.d : ℚ) / 65536 * deriv) / (params.qpps : ℚ)) (-1) 1
  (u, integral, err)

/-- Spec-side assembly of one full integrating simulator step from
`pwmUSpec` and `velPidSpec`, for comparison against `sim_update`. -/
def simUpdateSpec (now l : ℚ) (s : SimState) : SimState :=
  let dt := rclamp (now - l) 0 (1/5)
  let r1 := if s.m1_mode_pwm then (pwmUSpec s.m1_pwm, s.m1_vi, s.m1_v_last_err)
            else velPidSpec s.m1_velocity_pid s.m1_speed s.m1_vel s.m1_vi s.m1_v_last_err dt
  let r2 := if s.m2_mode_pwm then (pwmUSpec s.m2_pwm, s.m2_vi, s.m2_v_last_err)
            else velPidSpec s.m2_velocity_pid s.m2_speed s.m2_vel s.m2_vi s.m2_v_last_err dt
  let steps := (dt / (1/100)).ceil.toNat
  let r := simIntegrate s.tau_m1 s.tau_m2 (s.gain_m1 * r1.1) (s.gain_m2 * r2.1)
    (dt / (steps : ℚ)) steps (s.m1_vel, s.m2_vel, s.m1_encoder, s.m2_encoder)
  { s with
    m1_vel := r.1
    m2_vel := r.2.1
    m1_encoder := r.2.2.1
    m2_encoder := r.2.2.2
    m1_vi := r1.2.1
    m1_v_last_err := r1.2.2
    m2_vi := r2.2.1
    m2_v_last_err := r2.2.2
    last_update := some now }

/-- Claim C5.  On every integrating step of the simulated backend, each motor's
actuator command, integrator and last-error evolve exactly as the claim's
formulas say: PWM mode uses `clamp(pwm/32767, -1, 1)`, speed mode runs
the internal velocity PID of `velPidSpec`, and the plant is driven by
`gain × u`. -/
theorem sim_update_actuator_commands (now l : ℚ) (s : SimState)
    (hl : s.last_update = some l)
    (hdt : ¬ rclamp (now - l) 0 (1/5) ≤ 1/1000000) :
    sim_update now s = simUpdateSpec now l s := by
  simp only [sim_update, hl]
  rw [if_neg hdt]
  by_cases h1 : s.m1_mode_pwm <;> by_cases h2 : s.m2_mode_pwm <;>
    simp [h1, h2, simUpdateSpec, pwmUSpec, velPidSpec]

/-- A concrete state whose last update happened at time 0. -/
def simExState : SimState := { initSimState with last_update := some 0 }

/-- Witness: the actuator-command characterization fires at `now = 1`
from `simExState`. -/
theorem sim_update_actuator_commands_witness :
    simExState.last_update = some 0
    ∧ ¬ rclamp (1 - 0) 0 (1/5) ≤ 1/1000000
    ∧ sim_update 1 simExState = simUpdateSpec 1 0 simExState := by
  refine ⟨rfl, ?_, ?_⟩
  · norm_num [rclamp]
  · exact sim_update_actuator_commands 1 0 simExState rfl (by norm_num [rclamp])

/-! ## Claim C8: time clamping and fixed sub-step integration -/

/-- The clamped time step the simulator uses. -/
def clampDt (now l : ℚ) : ℚ := rclamp (now - l) 0 (1/5)

/-- The number of integration sub-steps: `ceil(dt / 0.01)`. -/
def stepsOf (dt : ℚ) : Nat := (dt / (1/100)).ceil.toNat

/-- Claim C8.  Each simulation update clamps the elapsed time to `[0, 0.2]` s;
with no previous timestamp, or with a clamped `dt ≤ 1 µs`, it only
refreshes the timestamp; otherwise it advances velocities and encoders by
exactly `ceil(dt/0.01)` applications of the 10 ms sub-step with step size
`dt/steps`, and refreshes the timestamp. -/
theorem sim_update_substep_structure (now : ℚ) (s : SimState) :
    (∀ l, 0 ≤ clampDt now l ∧ clampDt now l ≤ 1/5)
    ∧ (s.last_update = none → sim_update now s = { s with last_update := some now })
    ∧ (∀ l, s.last_update = some l → clampDt now l ≤ 1/1000000 →
        sim_update now s = { s with last_update := some now })
    ∧ (∀ l, s.last_update = some l → ¬ clampDt now l ≤ 1/1000000 →
        ∃ t1 t2 : ℚ,
          ((sim_update now s).m1_vel, (sim_update now s).m2_vel,
              (sim_update now s).m1_encoder, (sim_update now s).m2_encoder)
            = (simSubStep s.tau_m1 s.tau_m2 t1 t2
                (clampDt now l / (stepsOf (clampDt now l) : ℚ)))^[stepsOf (clampDt now l)]
                (s.m1_vel, s.m2_vel, s.m1_encoder, s.m2_encoder)
          ∧ (sim_update now s).last_update = some now) := by
  refine ⟨?_, ?_, ?_, ?_⟩
  · intro l
    unfold clampDt rclamp
    constructor
    · exact le_min (le_max_right _ _) (by norm_num)
    · exact min_le_right _ _
  · intro h
    simp [sim_update, h]
  · intro l hl hdt
    exact sim_update_noop now l s hl hdt
  · intro l hl hdt
    unfold clampDt at hdt
    simp only [sim_update, hl]
    rw [if_neg hdt]
    refine ⟨s.gain_m1 * (if s.m1_mode_pwm then
        (rclamp ((s.m1_pwm : ℚ) / 32767) (-1) 1, s.m1_vi, s.m1_v_last_err)
      else
        let params := s.m1_velocity_pid
        let set_v := (((s.m1_speed : ℚ) - 64) / 63) * (params.qpps : ℚ)
        let err := set_v - s.m1_vel
        let p := (params.p : ℚ) / 65536
        let i := (params.i : ℚ) / 65536
        let d := (params.d : ℚ) / 65536
        let vi := s.m1_vi + err * (rclamp (now - l) 0 (1/5))
        let deriv := (err - s.m1_v_last_err) / (rclamp (now - l) 0 (1/5))
        let control := p * err + i * vi + d * deriv
        (rclamp (control / (params.qpps : ℚ)) (-1) 1, vi, err)).1, ?_⟩
    refine ⟨s.gain_m2 * (if s.m2_mode_pwm then
        (rclamp ((s.m2_pwm : ℚ) / 32767) (-1) 1, s.m2_vi, s.m2_v_last_err)
      else
        let params := s.m2_velocity_pid
        let set_v := (((s.m2_speed : ℚ) - 64) / 63) * (params.qpps : ℚ)
        let err := set_v - s.m2_vel
        let p := (params.p : ℚ) / 65536
        let i := (params.i : ℚ) / 65536
        let d := (params.d : ℚ) / 65536
        let vi := s.m2_vi + err * (rclamp (now - l) 0 (1/5))
        let deriv := (err - s.m2_v_last_err) / (rclamp (now - l) 0 (1/5))
        let control := p * err + i * vi + d * deriv
        (rclamp (control / (params.qpps : ℚ)) (-1) 1, vi, err)).1, ?_⟩
    rw [← simIntegrate_eq_iterate]
    unfold clampDt stepsOf
    constructor
    · rfl
    · rfl

/-- Witness: all three behaviours of the sub-step structure at concrete
inputs — a first call, a zero-`dt` call, and an integrating call. -/
theorem sim_update_substep_structure_witness :
    (initSimState.last_update = none
      ∧ sim_update 5 initSimState = { initSimState with last_update := some 5 })
    ∧ (simExState.last_update = some 0 ∧ clampDt 0 0 ≤ 1/1000000
      ∧ sim_update 0 simExState = { simExState with last_update := some 0 })
    ∧ (¬ clampDt 1 0 ≤ 1/1000000
      ∧ ∃ t1 t2 : ℚ,
          ((sim_update 1 simExState).m1_vel, (sim_update 1 simExState).m2_vel,
              (sim_update 1 simExState).m1_encoder, (sim_update 1 simExState).m2_encoder)
            = (simSubStep simExState.tau_m1 simExState.tau_m2 t1 t2
                (clampDt 1 0 / (stepsOf (clampDt 1 0) : ℚ)))^[stepsOf (clampDt 1 0)]
                (simExState.m1_vel, simExState.m2_vel,
                  simExState.m1_encoder, simExState.m2_encoder)
          ∧ (sim_update 1 simExState).last_update = some 1) := by
  refine ⟨⟨rfl, (sim_update_substep_structure 5 initSimState).2.1 rfl⟩, ?_, ?_⟩
  · have hdt : clampDt 0 0 ≤ 1/1000000 := by norm_num [clampDt, rclamp]
    exact ⟨rfl, hdt, (sim_update_substep_structure 0 simExState).2.2.1 0 rfl hdt⟩
  · have hdt : ¬ clampDt 1 0 ≤ 1/1000000 := by norm_num [clampDt, rclamp]
    exact ⟨hdt, (sim_update_substep_structure 1 simExState).2.2.2 0 rfl hdt⟩

/-! ## Claim C10: simulated encoder reset -/

/-- Simulated branch of `reset_encoder_sync` (device.rs lines 395-399):
speed bytes back to 64, PWM duties to 0, mode flags to false, velocities
to 0; the encoder counters are not assigned. -/
def reset_encoder_sim (s : SimState) : Except String Unit × SimState :=
  (.ok (), { s with
    m1_speed := 64, m2_speed := 64, m1_pwm := 0, m2_pwm := 0,
    m1_mode_pwm := false, m2_mode_pwm := false, m1_vel := 0, m2_vel := 0 })

/-- Claim C10.  In simulated mode the encoder reset always succeeds, leaves
both cumulative encoder counts unchanged, and instead resets the speed
commands to 64, the PWM duties to 0, both mode flags to false, and both
velocities to 0. -/
theorem reset_encoder_sim_effects (s : SimState) :
    (reset_encoder_sim s).1 = .ok ()
    ∧ (reset_encoder_sim s).2.m1_encoder = s.m1_encoder
    ∧ (reset_encoder_sim s).2.m2_encoder = s.m2_encoder
    ∧ (reset_encoder_sim s).2.m1_speed = 64
    ∧ (reset_encoder_sim s).2.m2_speed = 64
    ∧ (reset_encoder_sim s).2.m1_pwm = 0
    ∧ (reset_encoder_sim s).2.m2_pwm = 0
    ∧ (reset_encoder_sim s).2.m1_mode_pwm = false
    ∧ (reset_encoder_sim s).2.m2_mode_pwm = false
    ∧ (reset_encoder_sim s).2.m1_vel = 0
    ∧ (reset_encoder_sim s).2.m2_vel = 0 :=
  ⟨rfl, rfl, rfl, rfl, rfl, rfl, rfl, rfl, rfl, rfl, rfl⟩

/-! ## QPPS measurement (device.rs, `measure_qpps_sync`, lines 681-740) -/

/-- Rust `as i32` saturation on an integer-valued float. -/
def i32Sat (x : Int) : Int := min (max x (-2147483648)) 2147483647

/-- One per-interval QPPS sample (lines 729-731): the encoder delta
divided by the 0.1 s sample interval (`sample_interval / 1000`), rounded
and cast `as i32`. -/
def qppsOfDelta (delta : Int) : Int :=
  i32Sat (round ((delta : ℚ) / ((100 : ℚ) / 1000)))

theorem qppsOfDelta_eq (delta : Int) : qppsOfDelta delta = i32Sat (delta * 10) := by
  unfold qppsOfDelta
  have h : ((delta : ℚ)) / ((100 : ℚ) / 1000) = ((delta * 10 : Int) : ℚ) := by
    push_cast
    ring
  rw [h, round_intCast]

/-- Insert into a sorted list, keeping ascending order. -/
def insertSorted (x : Int) : List Int → List Int
  | [] => [x]
  | y :: ys => if x ≤ y then x :: y :: ys else y :: insertSorted x ys

/-- Ascending sort; on `i32` values `Vec::sort` produces exactly this
list (stability is unobservable on integers). -/
def sortInts : List Int → List Int
  | [] => []
  | x :: xs => insertSorted x (sortInts xs)

theorem length_insertSorted (x : Int) (l : List Int) :
    (insertSorted x l).length = l.length + 1 := by
  induction l with
  | nil => rfl
  | cons y ys ih =>
    unfold insertSorted
    split
    · rfl
    · simp [ih]

theorem length_sortInts (l : List Int) : (sortInts l).length = l.length := by
  induction l with
  | nil => rfl
  | cons x xs ih => simp [sortInts, length_insertSorted, ih]

/-- Post-collection processing of `measure_qpps_sync` (lines 724-739):
fail below 2 samples, else per-interval deltas → QPPS samples, sort, and
report the middle element plus the raw and per-interval samples. -/
def qpps_finish (encoder_samples : List Int) :
    Except String (Int × List Int × List Int) :=
  if encoder_samples.length < 2 then .error "Not enough encoder samples"
  else
    let qpps_samples := List.zipWith (fun a b => qppsOfDelta (b - a))
      encoder_samples encoder_samples.tail
    let sorted := sortInts qpps_samples
    .ok (sorted.getD (sorted.length / 2) 0, encoder_samples, sorted)

/-- Embedding of `measure_qpps_sync` as a function of the duration argument and the
encoder samples the sampling loop collected (line 682 plus lines
724-739). -/
def measure_qpps_post (duration_ms : Nat) (encoder_samples : List Int) :
    Except String (Int × List Int × List Int) :=
  if duration_ms < 200 then .error "duration_ms must be >= 200"
  else qpps_finish encoder_samples

/-- Spec-side: the per-interval encoder deltas divided by the 0.1 s
sample interval. -/
def intervalQpps (samples : List Int) : List Int :=
  List.zipWith (fun a b => (b - a) * 10) samples samples.tail

/-- Spec-side: the element at index `len/2` of the sorted list. -/
def medianAtHalf (l : List Int) : Int :=
  (sortInts l).getD (l.length / 2) 0

theorem zipWith_qpps_eq (l1 l2 : List Int)
    (h : ∀ x ∈ List.zipWith (fun a b => (b - a) * 10) l1 l2,
      -2147483648 ≤ x ∧ x ≤ 2147483647) :
    List.zipWith (fun a b => qppsOfDelta (b - a)) l1 l2
      = List.zipWith (fun a b => (b - a) * 10) l1 l2 := by
  induction l1 generalizing l2 with
  | nil => cases l2 <;> rfl
  | cons a as ih =>
    cases l2 with
    | nil => rfl
    | cons b bs =>
      simp only [List.zipWith_cons_cons]
      have hhead := h ((b - a) * 10) (by simp)
      have hsat : i32Sat ((b - a) * 10) = (b - a) * 10 := by
        unfold i32Sat
        omega
      rw [qppsOfDelta_eq, hsat, ih bs (fun x hx => h x (by simp [hx]))]

/-- Claim C6.  `measure_qpps` fails for `duration_ms < 200` and for fewer than
2 collected encoder samples; otherwise it returns the element at index
`len/2` of the sorted list of per-interval encoder deltas divided by the
0.1 s sample interval, together with the raw encoder samples and the
(sorted) per-interval samples.  The range hypothesis keeps the `as i32`
saturation of each sample inactive. -/
theorem measure_qpps_median (duration_ms : Nat) (samples : List Int)
    (hrange : ∀ x ∈ intervalQpps samples,
      -2147483648 ≤ x ∧ x ≤ 2147483647) :
    measure_qpps_post duration_ms samples
      = if duration_ms < 200 then .error "duration_ms must be >= 200"
        else if samples.length < 2 then .error "Not enough encoder samples"
        else .ok (medianAtHalf (intervalQpps samples), samples,
          sortInts (intervalQpps samples)) := by
  unfold measure_qpps_post qpps_finish
  have hz : List.zipWith (fun a b => qppsOfDelta (b - a)) samples samples.tail
      = intervalQpps samples := zipWith_qpps_eq samples samples.tail hrange
  by_cases hdur : duration_ms < 200
  · rw [if_pos hdur, if_pos hdur]
  · rw [if_neg hdur, if_neg hdur]
    by_cases hlen : samples.length < 2
    · rw [if_pos hlen, if_pos hlen]
    · rw [if_neg hlen, if_neg hlen]
      simp only [hz, medianAtHalf, length_sortInts]

/-- Witness: a run of 300 ms with samples `[0, 100, 250, 275]` reports
the median 1000 of the per-interval rates `[1000, 1500, 250]`. -/
theorem measure_qpps_median_witness :
    measure_qpps_post 300 [0, 100, 250, 275]
      = .ok (1000, [0, 100, 250, 275], [250, 1000, 1500]) := by
  rw [measure_qpps_median 300 [0, 100, 250, 275] (by decide)]
  decide

/-! ## Claim C7: PWM restoration after QPPS measurement -/

/-- Sampling loop of the simulated branch (lines 694-700): each iteration
runs `sim_update` and records the cumulative encoder count; `nows` gives
the `Instant::now()` value observed by the `k`-th update. -/
def measure_qpps_sim_loop (motor_index : Nat) (nows : Nat → ℚ) :
    Nat → Nat → SimState → List Int → SimState × List Int
  | 0, _, st, acc => (st, acc)
  | n + 1, k, st, acc =>
    let st1 := sim_update (nows k) st
    measure_qpps_sim_loop motor_index nows n (k + 1) st1
      (acc ++ [if motor_index = 1 then st1.m1_encoder else st1.m2_encoder])

/-- Simulated branch of `measure_qpps_sync` (lines 682, 687-702, 724-739):
save the motor's PWM/mode, force full PWM, sample
`ceil(duration_ms/100)` times, restore the saved PWM/mode, then process
the samples. -/
def measure_qpps_sim (motor_index duration_ms : Nat) (nows : Nat → ℚ)
    (s : SimState) :
    Except String (Int × List Int × List Int) × SimState :=
  if duration_ms < 200 then (.error "duration_ms must be >= 200", s)
  else
    let prev_pwm := if motor_index = 1 then s.m1_pwm else s.m2_pwm
    let prev_mode := if motor_index = 1 then s.m1_mode_pwm else s.m2_mode_pwm
    let s1 := if motor_index = 1 then { s with m1_pwm := 32767, m1_mode_pwm := true }
              else { s with m2_pwm := 32767, m2_mode_pwm := true }
    let r := measure_qpps_sim_loop motor_index nows ((duration_ms + 99) / 100) 0 s1 []
    let s2 := if motor_index = 1 then { r.1 with m1_pwm := prev_pwm, m1_mode_pwm := prev_mode }
              else { r.1 with m2_pwm := prev_pwm, m2_mode_pwm := prev_mode }
    (qpps_finish r.2, s2)

/-- Sampling loop of the hardware branch (lines 707-719): one Read All
Status exchange per 100 ms interval; a failed read logs and skips the
sample.  `oracle k` is the raw response to the `k`-th exchange. -/
def measure_qpps_hw_loop (motor_index addr : Nat) (oracle : Nat → List Nat) :
    Nat → Nat → List Int → List Int
  | 0, _, acc => acc
  | n + 1, k, acc =>
    match read_all_status_resp (oracle k) addr with
    | .ok st =>
      measure_qpps_hw_loop motor_index addr oracle n (k + 1)
        (acc ++ [if motor_index = 1 then st.m1_encoder else st.m2_encoder])
    | .error _ => measure_qpps_hw_loop motor_index addr oracle n (k + 1) acc

/-- Hardware branch of `measure_qpps_sync` (lines 682, 703-739): command
full PWM (32767), sample via Read All Status, command PWM 0, then process
the samples.  The second component records the PWM duty values commanded
over the wire, in order; `oracle 0` answers the first Drive PWM, the next
`ceil(duration_ms/100)` entries answer the status reads, and the entry
after those answers the final Drive PWM. -/
def measure_qpps_hw (motor_index addr duration_ms : Nat)
    (oracle : Nat → List Nat) :
    Except String (Int × List Int × List Int) × List Int :=
  if duration_ms < 200 then (.error "duration_ms must be >= 200", [])
  else
    match drive_pwm_ack (oracle 0) with
    | .error e => (.error e, [32767])
    | .ok _ =>
      let samples := measure_qpps_hw_loop motor_index addr (fun k => oracle (k + 1))
        ((duration_ms + 99) / 100) 0 []
      match drive_pwm_ack (oracle (1 + (duration_ms + 99) / 100)) with
      | .error e => (.error e, [32767, 0])
      | .ok _ => (qpps_finish samples, [32767, 0])

theorem measure_qpps_sim_loop_preserves (motor : Nat) (nows : Nat → ℚ)
    (n : Nat) :
    ∀ (k : Nat) (st : SimState) (acc : List Int),
      (measure_qpps_sim_loop motor nows n k st acc).1.m1_pwm = st.m1_pwm
      ∧ (measure_qpps_sim_loop motor nows n k st acc).1.m1_mode_pwm = st.m1_mode_pwm
      ∧ (measure_qpps_sim_loop motor nows n k st acc).1.m2_pwm = st.m2_pwm
      ∧ (measure_qpps_sim_loop motor nows n k st acc).1.m2_mode_pwm = st.m2_mode_pwm := by
  induction n with
  | zero => intro k st acc; exact ⟨rfl, rfl, rfl, rfl⟩
  | succ m ih =>
    intro k st acc
    have hp := sim_update_preserves_commands (nows k) st
    have hr := ih (k + 1) (sim_update (nows k) st)
      (acc ++ [if motor = 1 then (sim_update (nows k) st).m1_encoder
        else (sim_update (nows k) st).m2_encoder])
    show (measure_qpps_sim_loop motor nows m (k + 1) (sim_update (nows k) st) _).1.m1_pwm = _
      ∧ (measure_qpps_sim_loop motor nows m (k + 1) (sim_update (nows k) st) _).1.m1_mode_pwm = _
      ∧ (measure_qpps_sim_loop motor nows m (k + 1) (sim_update (nows k) st) _).1.m2_pwm = _
      ∧ (measure_qpps_sim_loop motor nows m (k + 1) (sim_update (nows k) st) _).1.m2_mode_pwm = _
    exact ⟨hr.1.trans hp.1, hr.2.1.trans hp.2.2.1, hr.2.2.1.trans hp.2.1,
      hr.2.2.2.trans hp.2.2.2.1⟩

/-- The sampling loop collects exactly one sample per iteration. -/
theorem measure_qpps_sim_loop_len (motor : Nat) (nows : Nat → ℚ) (n : Nat) :
    ∀ (k : Nat) (st : SimState) (acc : List Int),
      (measure_qpps_sim_loop motor nows n k st acc).2.length = acc.length + n := by
  induction n with
  | zero => intro k st acc; rfl
  | succ m ih =>
    intro k st acc
    show (measure_qpps_sim_loop motor nows m (k + 1) _ _).2.length = _
    rw [ih]
    simp
    omega

theorem qpps_finish_isOk (l : List Int) (h : ¬ l.length < 2) :
    (qpps_finish l).isOk = true := by
  unfold qpps_finish
  rw [if_neg h]
  rfl

/-- The simulated measurement leaves every PWM command and mode flag as
it found them. -/
theorem measure_qpps_sim_preserves (motor duration : Nat) (nows : Nat → ℚ)
    (s : SimState) :
    (measure_qpps_sim motor duration nows s).2.m1_pwm = s.m1_pwm
    ∧ (measure_qpps_sim motor duration nows s).2.m1_mode_pwm = s.m1_mode_pwm
    ∧ (measure_qpps_sim motor duration nows s).2.m2_pwm = s.m2_pwm
    ∧ (measure_qpps_sim motor duration nows s).2.m2_mode_pwm = s.m2_mode_pwm := by
  unfold measure_qpps_sim
  by_cases hdur : duration < 200
  · rw [if_pos hdur]
    exact ⟨rfl, rfl, rfl, rfl⟩
  · rw [if_neg hdur]
    by_cases hm : motor = 1
    · simp only [hm, if_pos rfl]
      have hloop := measure_qpps_sim_loop_preserves 1 nows ((duration + 99) / 100) 0
        { s with m1_pwm := 32767, m1_mode_pwm := true } []
      exact ⟨rfl, rfl, hloop.2.2.1, hloop.2.2.2⟩
    · simp only [hm, if_neg hm]
      have hloop := measure_qpps_sim_loop_preserves motor nows ((duration + 99) / 100) 0
        { s with m2_pwm := 32767, m2_mode_pwm := true } []
      exact ⟨hloop.1, hloop.2.1, rfl, rfl⟩

/-- Every successful hardware measurement ends with a Drive PWM command
of duty 0. -/
theorem measure_qpps_hw_last_cmd (motor addr duration : Nat)
    (oracle : Nat → List Nat)
    (hok : (measure_qpps_hw motor addr duration oracle).1.isOk = true) :
    (measure_qpps_hw motor addr duration oracle).2.getLast? = some 0 := by
  unfold measure_qpps_hw at hok ⊢
  by_cases hdur : duration < 200
  · rw [if_pos hdur] at hok
    simp [isOk_error] at hok
  · rw [if_neg hdur] at hok ⊢
    cases ha : drive_pwm_ack (oracle 0) with
    | error e =>
      rw [ha] at hok
      simp [isOk_error] at hok
    | ok u =>
      rw [ha] at hok
      cases hb : drive_pwm_ack (oracle (1 + (duration + 99) / 100)) with
      | error e =>
        rw [hb] at hok
        simp [isOk_error] at hok
      | ok v =>
        rfl

/-- Claim C7, amended.  After every `measure_qpps` run the simulated backend
restores the motor's PWM command and mode flag to their pre-measurement
values — not necessarily 0; on the hardware backend every successful run
ends with a Drive PWM command of duty 0. -/
theorem measure_qpps_restores_pwm (motor duration : Nat) (nows : Nat → ℚ)
    (s : SimState) (addr : Nat) (oracle : Nat → List Nat) :
    ((measure_qpps_sim motor duration nows s).2.m1_pwm = s.m1_pwm
      ∧ (measure_qpps_sim motor duration nows s).2.m1_mode_pwm = s.m1_mode_pwm
      ∧ (measure_qpps_sim motor duration nows s).2.m2_pwm = s.m2_pwm
      ∧ (measure_qpps_sim motor duration nows s).2.m2_mode_pwm = s.m2_mode_pwm)
    ∧ ((measure_qpps_hw motor addr duration oracle).1.isOk = true →
        (measure_qpps_hw motor addr duration oracle).2.getLast? = some 0) :=
  ⟨measure_qpps_sim_preserves motor duration nows s,
    measure_qpps_hw_last_cmd motor addr duration oracle⟩

/-- A state with a nonzero PWM command saved before measurement. -/
def qppsCexState : SimState := { initSimState with m1_pwm := 5, last_update := some 0 }

def qppsCexNows : Nat → ℚ := fun _ => 0

/-- Claim C7, counterexample.  A successful simulated `measure_qpps` run from a
state with `m1_pwm = 5` ends with `m1_pwm = 5`, not 0: the simulated
backend restores the previous PWM command instead of zeroing it. -/
theorem measure_qpps_sim_pwm_counterexample :
    (measure_qpps_sim 1 200 qppsCexNows qppsCexState).1.isOk = true
    ∧ (measure_qpps_sim 1 200 qppsCexNows qppsCexState).2.m1_pwm = 5
    ∧ (5 : Int) ≠ 0 := by
  refine ⟨?_, ?_, by norm_num⟩
  · unfold measure_qpps_sim
    rw [if_neg (by norm_num)]
    simp only [if_pos rfl]
    apply qpps_finish_isOk
    rw [measure_qpps_sim_loop_len]
    norm_num
  · exact (measure_qpps_sim_preserves 1 200 qppsCexNows qppsCexState).1.trans rfl

/-- An oracle for the hardware path: `0xFF` acknowledgements for the two
Drive PWM exchanges and valid all-zero status frames for the reads. -/
def qppsExOracle : Nat → List Nat := fun k =>
  if k = 0 then [255]
  else if k = 3 then [255]
  else mkFrame 128 73 (List.replicate 56 0)

/-- The hardware sampling loop collects one sample per successful status
read. -/
theorem measure_qpps_hw_loop_len (motor addr : Nat) (g : Nat → List Nat)
    (n : Nat) :
    ∀ (k : Nat) (acc : List Int),
      (∀ j, k ≤ j → j < k + n → (read_all_status_resp (g j) addr).isOk = true) →
      (measure_qpps_hw_loop motor addr g n k acc).length = acc.length + n := by
  induction n with
  | zero => intro k acc _; rfl
  | succ m ih =>
    intro k acc h
    have hk := h k (le_refl k) (by omega)
    cases hr : read_all_status_resp (g k) addr with
    | error e =>
      rw [hr] at hk
      simp [isOk_error] at hk
    | ok st =>
      have htail := ih (k + 1)
        (acc ++ [if motor = 1 then st.m1_encoder else st.m2_encoder])
        (fun j hj1 hj2 => h j (by omega) (by omega))
      calc (measure_qpps_hw_loop motor addr g (m + 1) k acc).length
          = (measure_qpps_hw_loop motor addr g m (k + 1)
              (acc ++ [if motor = 1 then st.m1_encoder else st.m2_encoder])).length := by
            simp only [measure_qpps_hw_loop, hr]
        _ = acc.length + (m + 1) := by
            rw [htail]
            simp
            omega

/-- A well-formed all-status frame with at least 56 payload bytes is
accepted by the status reader. -/
theorem read_all_status_resp_mkFrame (addr : Nat) (pl : List Nat)
    (hne : pl ≠ []) (hlen : ¬ pl.length < 56) :
    (read_all_status_resp (mkFrame addr 73 pl) addr).isOk = true := by
  unfold read_all_status_resp
  have hF : (mkFrame addr 73 pl).isEmpty = false := by
    unfold mkFrame crcBytes
    cases pl
    · exact absurd rfl hne
    · rfl
  rw [hF]
  rw [if_neg (by simp : ¬ (false = true))]
  rw [parse_mkFrame addr 73 pl hne]
  simp [hlen, isOk_ok]

/-- A hardware measurement whose acknowledgements and status reads all
succeed, with at least 2 sampling intervals, succeeds. -/
theorem measure_qpps_hw_isOk_of (motor addr duration : Nat)
    (oracle : Nat → List Nat)
    (hdur : ¬ duration < 200)
    (ha : drive_pwm_ack (oracle 0) = .ok ())
    (hb : drive_pwm_ack (oracle (1 + (duration + 99) / 100)) = .ok ())
    (hreads : ∀ j, 0 ≤ j → j < 0 + (duration + 99) / 100 →
      (read_all_status_resp (oracle (j + 1)) addr).isOk = true)
    (h2 : ¬ (duration + 99) / 100 < 2) :
    (measure_qpps_hw motor addr duration oracle).1.isOk = true := by
  unfold measure_qpps_hw
  rw [if_neg hdur, ha, hb]
  have hlen : ¬ (measure_qpps_hw_loop motor addr (fun k => oracle (k + 1))
      ((duration + 99) / 100) 0 []).length < 2 := by
    rw [measure_qpps_hw_loop_len motor addr (fun k => oracle (k + 1))
      ((duration + 99) / 100) 0 [] (fun j h1 h3 => hreads j h1 h3)]
    simpa using h2
  exact qpps_finish_isOk _ hlen

theorem measure_qpps_hw_exOracle_isOk :
    (measure_qpps_hw 1 128 200 qppsExOracle).1.isOk = true := by
  apply measure_qpps_hw_isOk_of
  · norm_num
  · decide
  · decide
  · intro j _ hj2
    have hj : j < 2 := by
      have h2 : (200 + 99) / 100 = 2 := by norm_num
      omega
    have hval : qppsExOracle (j + 1) = mkFrame 128 73 (List.replicate 56 0) := by
      unfold qppsExOracle
      rw [if_neg (by omega), if_neg (by omega)]
    rw [hval]
    exact read_all_status_resp_mkFrame 128 (List.replicate 56 0) (by simp) (by simp)
  · norm_num

/-- Witness: PWM restoration at a concrete simulated state, and a
concrete successful hardware run whose last commanded duty is 0. -/
theorem measure_qpps_restores_pwm_witness :
    (measure_qpps_sim 1 200 qppsCexNows simExState).2.m1_pwm = simExState.m1_pwm
    ∧ (measure_qpps_hw 1 128 200 qppsExOracle).1.isOk = true
    ∧ (measure_qpps_hw 1 128 200 qppsExOracle).2.getLast? = some 0 :=
  ⟨(measure_qpps_restores_pwm 1 200 qppsCexNows simExState 128 qppsExOracle).1.1,
    measure_qpps_hw_exOracle_isOk,
    (measure_qpps_restores_pwm 1 200 qppsCexNows simExState 128 qppsExOracle).2
      measure_qpps_hw_exOracle_isOk⟩

end MotionStudio
